import Mathlib

/-!
Shallow embedding of the alert pipeline of the binance-whale-tracker
repository: the `AlertManager` class (alerts map, cooldown map, bounded
trigger history, notifier fan-out) and the `TelegramNotifier` queue drain.

JavaScript `Map`s are modelled as insertion-ordered association lists
(`Map.set` on an existing key updates the entry in place, preserving its
position; `Map.delete` removes the entry).  Prices are modelled as `Int`
(all comparisons in the source are plain numeric orderings).  Wall-clock
time (`Date.now()`) is an explicit `Nat` parameter: one `processPriceUpdate`
call is a single synchronous pass and uses one time value.  A notifier is a
function from the dispatched notification to `Except String Unit`, where
`.error` models a thrown delivery exception caught by the dispatch loop.
-/

namespace WhaleTracker

inductive AlertType where
  | above
  | below
  | cross
deriving DecidableEq, Repr

def AlertType.str : AlertType → String
  | .above => "above"
  | .below => "below"
  | .cross => "cross"

inductive AlertStatus where
  | active
  | triggered
deriving DecidableEq, Repr

/-- One alert record, as built by `AlertManager.addAlert`.  `lastPrice` is
`none` until the first evaluation (JS `undefined`).  The source field
`repeat` is a Lean keyword, so it is named `repeatFlag` here. -/
structure Alert where
  id : String
  symbol : String
  price : Int
  type : AlertType
  status : AlertStatus
  lastPrice : Option Int
  created : Nat
  triggeredAt : Option Nat
  triggeredPrice : Option Int
  repeatFlag : Bool
deriving DecidableEq, Repr

/-- The caller-supplied alert configuration accepted by `addAlert`
(optional id and type; `repeat` defaults to false). -/
structure AlertConfig where
  id : Option String
  symbol : String
  price : Int
  type : Option AlertType
  repeatFlag : Bool
deriving DecidableEq, Repr

/-- A notifier's `send`: receives the triggered alert together with the
formatted message; `.error` models a thrown exception. -/
def NotifierFn : Type := (Alert × String) → Except String Unit

/-- One dispatch cycle (`sendAlert` invocation): the alert snapshot at
dispatch time and the per-notifier delivery outcomes. -/
structure DispatchEvent where
  alert : Alert
  results : List (Except String Unit)

/-- Insertion-ordered association-list model of a JS `Map`. -/
def mapGet (l : List (String × α)) (k : String) : Option α :=
  (l.find? (fun p => p.1 == k)).map (·.2)

def mapHas (l : List (String × α)) (k : String) : Bool :=
  l.any (fun p => p.1 == k)

/-- `Map.set`: update the entry for the key in place (a JS `Map` holds at
most one entry per key), preserving its position; append when absent. -/
def mapSet : List (String × α) → String → α → List (String × α)
  | [], k, v => [(k, v)]
  | p :: rest, k, v =>
    if p.1 == k then (k, v) :: rest else p :: mapSet rest k v

/-- `Map.delete`: remove the entry for the key. -/
def mapDel : List (String × α) → String → List (String × α)
  | [], _ => []
  | p :: rest, k => if p.1 == k then rest else p :: mapDel rest k

/-- The `AlertManager` state. -/
structure AlertManager where
  alerts : List (String × Alert)
  notifiers : List NotifierFn
  alertHistory : List Alert
  maxAlerts : Nat
  cooldown : Nat
  lastAlertTimes : List (String × Nat)

def AlertManager.init (maxAlerts : Nat := 100) (cooldown : Nat := 3600000) :
    AlertManager :=
  { alerts := [], notifiers := [], alertHistory := [],
    maxAlerts := maxAlerts, cooldown := cooldown, lastAlertTimes := [] }

/-- `addNotifier`. -/
def addNotifier (m : AlertManager) (n : NotifierFn) : AlertManager :=
  { m with notifiers := m.notifiers ++ [n] }

/-- The alert object built at the top of `addAlert` (defaults, then the
config spread; `freshId` stands for the `uuidv4()` result used when the
config carries no id). -/
def buildAlert (cfg : AlertConfig) (freshId : String) (now : Nat) : Alert :=
  { id := cfg.id.getD freshId
    symbol := cfg.symbol
    price := cfg.price
    type := cfg.type.getD .above
    status := .active
    lastPrice := none
    created := now
    triggeredAt := none
    triggeredPrice := none
    repeatFlag := cfg.repeatFlag }

/-- `addAlert`: builds the alert, throws a capacity error when the store
already holds `maxAlerts` entries (before any mutation), else stores it. -/
def addAlert (m : AlertManager) (cfg : AlertConfig) (freshId : String)
    (now : Nat) : Except String (Alert × AlertManager) :=
  let alertId := cfg.id.getD freshId
  let alert := buildAlert cfg freshId now
  if m.alerts.length ≥ m.maxAlerts then
    .error ("Maximum number of alerts (" ++ toString m.maxAlerts ++ ") reached")
  else
    .ok (alert, { m with alerts := mapSet m.alerts alertId alert })

/-- `removeAlert`: returns whether an alert with that id was found. -/
def removeAlert (m : AlertManager) (alertId : String) :
    Bool × AlertManager :=
  if mapHas m.alerts alertId then
    (true, { m with alerts := mapDel m.alerts alertId })
  else
    (false, m)

/-- Optional filter accepted by `getAlerts`. -/
structure GetFilter where
  symbol : Option String := none
  status : Option AlertStatus := none
  type : Option AlertType := none

def matchesFilter (f : GetFilter) (a : Alert) : Bool :=
  (match f.symbol with | none => true | some s => a.symbol == s) &&
  (match f.status with | none => true | some s => a.status == s) &&
  (match f.type with | none => true | some t => a.type == t)

/-- `getAlerts`: the map's values in insertion order, filtered. -/
def getAlerts (m : AlertManager) (f : GetFilter) : List Alert :=
  (m.alerts.map (·.2)).filter (matchesFilter f)

/-- `checkAlert`: returns whether the alert should trigger together with
the updated alert (`alert.lastPrice = currentPrice` is a mutation of the
stored record).  A non-active alert returns early, before the `lastPrice`
write.  A `cross` alert with `lastPrice` unset never triggers (JS
comparisons against `undefined` are false). -/
def checkAlert (alert : Alert) (currentPrice : Int) : Bool × Alert :=
  if alert.status ≠ .active then (false, alert)
  else
    let shouldTrigger :=
      (alert.type == .above && decide (currentPrice ≥ alert.price)) ||
      (alert.type == .below && decide (currentPrice ≤ alert.price)) ||
      (alert.type == .cross &&
        (match alert.lastPrice with
         | none => false
         | some lp =>
             (decide (lp < alert.price) && decide (currentPrice ≥ alert.price)) ||
             (decide (lp > alert.price) && decide (currentPrice ≤ alert.price))))
    (shouldTrigger, { alert with lastPrice := some currentPrice })

/-- The cooldown key of `processPriceUpdate`:
a string of the shape symbol-type-price. -/
def cooldownKey (a : Alert) : String :=
  a.symbol ++ "-" ++ a.type.str ++ "-" ++ toString a.price

/-- The cooldown test of `processPriceUpdate`: the JS condition
`lastAlertTime && now - lastAlertTime < cooldown` (a stored time of 0 is
falsy; `Nat` truncation of `now - t` agrees with the JS comparison for a
monotone clock). -/
def inCooldown (m : AlertManager) (key : String) (now : Nat) : Bool :=
  match mapGet m.lastAlertTimes key with
  | none => false
  | some t => t != 0 && decide (now - t < m.cooldown)

/-- `formatAlertMessage`. -/
def formatAlertMessage (a : Alert) : String :=
  let emoji := if a.type == .above then "[up]" else "[down]"
  let current := match a.triggeredPrice with
    | none => "undefined"
    | some p => toString p
  emoji ++ " " ++ a.symbol ++ " " ++ a.type.str ++ " $" ++ toString a.price ++
    " (current: $" ++ current ++ ")"

/-- The `for (const notifier of this.notifiers)` loop of `sendAlert`: each
delivery attempt is wrapped in try/catch, so a thrown error (`.error`) is
recorded and the loop continues with the next notifier. -/
def sendAttempts (msg : Alert × String) :
    List NotifierFn → List (Except String Unit)
  | [] => []
  | n :: rest =>
    match n msg with
    | .ok _ => .ok () :: sendAttempts msg rest
    | .error e => .error e :: sendAttempts msg rest

/-- `sendAlert`: builds the message once, then offers the notification to
every registered notifier. -/
def sendAlert (notifiers : List NotifierFn) (alert : Alert) :
    List (Except String Unit) :=
  let message := formatAlertMessage alert
  sendAttempts (alert, message) notifiers

/-- The history trim of `processPriceUpdate`: after the push, drop the
oldest entry when the length exceeds 100. -/
def trimHist (h : List Alert) : List Alert :=
  if h.length > 100 then h.tail else h

/-- The body of the `processPriceUpdate` loop for one alert id: read the
current record, run `checkAlert` (whose `lastPrice` write persists in every
branch), skip silently when the cooldown key is hot, otherwise trigger:
set status/triggeredAt/triggeredPrice, record the trigger time, append a
history snapshot (trimmed to the last 100), dispatch, and reset to active
when `repeat` is set. -/
def processAlertStep (m : AlertManager) (evs : List DispatchEvent)
    (alertId : String) (price : Int) (now : Nat) :
    AlertManager × List DispatchEvent :=
  match mapGet m.alerts alertId with
  | none => (m, evs)
  | some alert =>
    let checked := checkAlert alert price
    let fire := checked.1
    let alert1 := checked.2
    if fire then
      let key := cooldownKey alert1
      if inCooldown m key now then
        ({ m with alerts := mapSet m.alerts alertId alert1 }, evs)
      else
        let alert2 := { alert1 with
          status := .triggered
          triggeredAt := some now
          triggeredPrice := some price }
        let hist2 := trimHist (m.alertHistory ++ [alert2])
        let results := sendAlert m.notifiers alert2
        let alert3 := if alert2.repeatFlag then { alert2 with status := .active }
          else alert2
        ({ m with
            alerts := mapSet m.alerts alertId alert3
            lastAlertTimes := mapSet m.lastAlertTimes key now
            alertHistory := hist2 },
         evs ++ [⟨alert2, results⟩])
    else
      ({ m with alerts := mapSet m.alerts alertId alert1 }, evs)

/-- `processPriceUpdate`: snapshot the active alerts for the symbol, then
run the loop body over their ids in insertion order.  Returns the new
state and the dispatch cycles that fired. -/
def processPriceUpdate (m : AlertManager) (symbol : String) (price : Int)
    (now : Nat) : AlertManager × List DispatchEvent :=
  let ids := (getAlerts m { symbol := some symbol, status := some .active }).map (·.id)
  ids.foldl (fun acc i => processAlertStep acc.1 acc.2 i price now) (m, [])

/-- A sequence of price updates for one symbol, each with its own
`Date.now()` value; dispatch events are accumulated in order. -/
def runUpdates (m : AlertManager) (symbol : String)
    (us : List (Int × Nat)) : AlertManager × List DispatchEvent :=
  us.foldl (fun acc u =>
    let r := processPriceUpdate acc.1 symbol u.1 u.2
    (r.1, acc.2 ++ r.2)) (m, [])

/-- `clearTriggered`: delete every triggered alert, returning the count. -/
def clearTriggered (m : AlertManager) : Nat × AlertManager :=
  let trig := getAlerts m { status := some .triggered }
  (trig.length, trig.foldl (fun acc a => (removeAlert acc a.id).2) m)

/-- The mutating operations of the `AlertManager` interface
(`getAlerts`/`getStatistics` are read-only and return no new state). -/
inductive Op where
  | add (cfg : AlertConfig) (freshId : String) (now : Nat)
  | remove (id : String)
  | register (n : NotifierFn)
  | update (symbol : String) (price : Int) (now : Nat)
  | clear

/-- Apply one operation; a capacity error from `addAlert` leaves the state
unchanged (the error propagates to the caller before any mutation). -/
def applyOp (m : AlertManager) : Op → AlertManager
  | .add cfg freshId now =>
    match addAlert m cfg freshId now with
    | .ok r => r.2
    | .error _ => m
  | .remove id => (removeAlert m id).2
  | .register n => addNotifier m n
  | .update symbol price now => (processPriceUpdate m symbol price now).1
  | .clear => (clearTriggered m).2

/-- A state reached from a freshly constructed manager by a sequence of
operations. -/
def reachable (maxAlerts cooldown : Nat) (ops : List Op) : AlertManager :=
  ops.foldl applyOp (AlertManager.init maxAlerts cooldown)

/-- A one-alert store (fresh manager that has had a single alert added). -/
def singleAlertMgr (a : Alert) (cd : Nat) : AlertManager :=
  { alerts := [(a.id, a)], notifiers := [], alertHistory := [],
    maxAlerts := 100, cooldown := cd, lastAlertTimes := [] }

/-- A two-alert store (fresh manager with two alerts, added in order). -/
def twoAlertMgr (a1 a2 : Alert) (cd : Nat) : AlertManager :=
  { alerts := [(a1.id, a1), (a2.id, a2)], notifiers := [], alertHistory := [],
    maxAlerts := 100, cooldown := cd, lastAlertTimes := [] }

/-- The triggered snapshot written by the firing branch of
`processPriceUpdate` (the record after `checkAlert`'s `lastPrice` write and
the status/triggeredAt/triggeredPrice assignments). -/
def triggeredSnapshot (a : Alert) (price : Int) (now : Nat) : Alert :=
  { a with lastPrice := some price, status := .triggered,
           triggeredAt := some now, triggeredPrice := some price }

/-!  The `TelegramNotifier` queue drain (`processQueue`).  Wall-clock time
is explicit: each queued message carries `gap` (time elapsing before the
loop reads `Date.now()` for it), `ok` (whether `sendMessage` resolves or
throws) and `dur` (how long the delivery attempt takes).  The drain state
is the pair (clock, `lastSendTime`). -/

structure QMsg where
  ok : Bool
  gap : Nat
  dur : Nat
deriving DecidableEq, Repr

/-- The rate-limiting wait at the top of the drain loop: the time at which
the delivery attempt starts, after sleeping out
`minInterval - (now - lastSendTime)` when that gap is still open. -/
def attemptTime (minInterval clock lastSendTime : Nat) (msg : QMsg) : Nat :=
  let now := clock + msg.gap
  if now - lastSendTime < minInterval then
    now + (minInterval - (now - lastSendTime))
  else now

/-- One iteration of the drain loop: wait, attempt delivery, and record
the send time only on success (a thrown `sendMessage` is caught and leaves
`lastSendTime` unchanged).  Returns the new (clock, lastSendTime) and the
send timestamp when the delivery succeeded. -/
def drainStep (minInterval clock lastSendTime : Nat) (msg : QMsg) :
    (Nat × Nat) × Option Nat :=
  let fin := attemptTime minInterval clock lastSendTime msg + msg.dur
  if msg.ok then ((fin, fin), some fin)
  else ((fin, lastSendTime), none)

/-- `processQueue`: strictly serial drain of the message queue. -/
def processQueue (minInterval clock lastSendTime : Nat) :
    List QMsg → (Nat × Nat) × List (Option Nat)
  | [] => ((clock, lastSendTime), [])
  | msg :: rest =>
    let r := drainStep minInterval clock lastSendTime msg
    let rr := processQueue minInterval r.1.1 r.1.2 rest
    (rr.1, r.2 :: rr.2)

/-- The timestamps of the successful deliveries, in send order. -/
def sendTimes (outs : List (Option Nat)) : List Nat :=
  outs.filterMap id

/-- The `TelegramNotifier` configuration state relevant to the drain
(`enabled` flag, `bot` initialization marker, `minInterval` default
1000 ms). -/
structure NotifierState where
  enabled : Bool
  bot : Bool
  minInterval : Nat
deriving DecidableEq, Repr

def NotifierState.init (enabled : Bool := true) : NotifierState :=
  { enabled := enabled, bot := false, minInterval := 1000 }

/-- Convenience constructor: a freshly added alert (as `buildAlert` yields
for a config that carries an explicit id). -/
def freshAlert (id symbol : String) (price : Int) (ty : AlertType)
    (rep : Bool := false) : Alert :=
  { id := id, symbol := symbol, price := price, type := ty,
    status := .active, lastPrice := none, created := 0,
    triggeredAt := none, triggeredPrice := none, repeatFlag := rep }

/-!  ## Basic lemmas about the map model -/

theorem mapGet_cons {p : String × α} {l : List (String × α)} {k : String} :
    mapGet (p :: l) k = if p.1 == k then some p.2 else mapGet l k := by
  by_cases h : (p.1 == k) = true <;> simp [mapGet, List.find?_cons, h]

theorem mapHas_cons {p : String × α} {l : List (String × α)} {k : String} :
    mapHas (p :: l) k = ((p.1 == k) || mapHas l k) := by
  simp [mapHas]

theorem mapHas_of_mapGet {l : List (String × α)} {k : String} {v : α}
    (h : mapGet l k = some v) : mapHas l k = true := by
  induction l with
  | nil => simp [mapGet] at h
  | cons p rest ih =>
    rw [mapGet_cons] at h
    rw [mapHas_cons]
    by_cases hpk : (p.1 == k) = true
    · simp [hpk]
    · simp only [hpk, Bool.false_or]
      exact ih (by simpa [hpk] using h)

theorem mapGet_mapSet_self {k : String} {v : α} :
    ∀ (l : List (String × α)), mapGet (mapSet l k v) k = some v := by
  intro l
  induction l with
  | nil => simp [mapSet, mapGet_cons]
  | cons p rest ih =>
    rw [mapSet]
    by_cases hpk : (p.1 == k) = true
    · rw [if_pos hpk, mapGet_cons]
      simp
    · rw [if_neg hpk, mapGet_cons]
      have hpk0 : (p.1 == k) = false := by simpa using hpk
      simp [hpk0, ih]

theorem mapGet_mapSet_ne {k k' : String} {v : α} (h : k ≠ k') :
    ∀ (l : List (String × α)), mapGet (mapSet l k v) k' = mapGet l k' := by
  intro l
  have hkk' : (k == k') = false := by simpa using h
  induction l with
  | nil => simp [mapSet, mapGet_cons, mapGet, hkk']
  | cons p rest ih =>
    rw [mapSet]
    by_cases hpk : (p.1 == k) = true
    · have hp : p.1 = k := by simpa using hpk
      rw [if_pos hpk, mapGet_cons, mapGet_cons]
      simp [hp, hkk']
    · rw [if_neg hpk, mapGet_cons, mapGet_cons, ih]

theorem length_mapSet_of_has {k : String} {v : α} :
    ∀ {l : List (String × α)}, mapHas l k = true →
      (mapSet l k v).length = l.length := by
  intro l h
  induction l with
  | nil => simp [mapHas] at h
  | cons p rest ih =>
    rw [mapHas_cons] at h
    rw [mapSet]
    by_cases hpk : (p.1 == k) = true
    · rw [if_pos hpk]
      simp
    · have hpk0 : (p.1 == k) = false := by simpa using hpk
      rw [if_neg hpk]
      have h' : mapHas rest k = true := by simpa [hpk0] using h
      simp [ih h']

theorem mapGet_mapDel_self {k : String} :
    ∀ {l : List (String × α)}, (l.map Prod.fst).Nodup →
      mapGet (mapDel l k) k = none := by
  intro l hnd
  induction l with
  | nil => simp [mapDel, mapGet]
  | cons p rest ih =>
    rw [List.map_cons, List.nodup_cons] at hnd
    rw [mapDel]
    by_cases hpk : (p.1 == k) = true
    · have hp : p.1 = k := by simpa using hpk
      rw [if_pos hpk]
      subst hp
      cases hfind : mapGet rest p.1 with
      | none => rfl
      | some w =>
        exfalso
        have hhas := mapHas_of_mapGet hfind
        have : p.1 ∈ rest.map Prod.fst := by
          simp only [mapHas, List.any_eq_true] at hhas
          obtain ⟨q, hq, hqk⟩ := hhas
          have : q.1 = p.1 := by simpa using hqk
          exact this ▸ List.mem_map_of_mem Prod.fst hq
        exact hnd.1 this
    · have hpk0 : (p.1 == k) = false := by simpa using hpk
      rw [if_neg hpk, mapGet_cons]
      simp [hpk0, ih hnd.2]

theorem mapGet_mapDel_ne {k k' : String} (h : k ≠ k') :
    ∀ (l : List (String × α)), mapGet (mapDel l k) k' = mapGet l k' := by
  intro l
  induction l with
  | nil => simp [mapDel]
  | cons p rest ih =>
    rw [mapDel]
    by_cases hpk : (p.1 == k) = true
    · have hp : p.1 = k := by simpa using hpk
      have hpk' : (p.1 == k') = false := by
        simp [hp]
        simpa using h
      rw [if_pos hpk, mapGet_cons, hpk']
      simp
    · rw [if_neg hpk, mapGet_cons, mapGet_cons, ih]

theorem length_mapDel_of_has {k : String} :
    ∀ {l : List (String × α)}, mapHas l k = true →
      (mapDel l k).length + 1 = l.length := by
  intro l h
  induction l with
  | nil => simp [mapHas] at h
  | cons p rest ih =>
    rw [mapHas_cons] at h
    rw [mapDel]
    by_cases hpk : (p.1 == k) = true
    · rw [if_pos hpk]
      simp
    · have hpk0 : (p.1 == k) = false := by simpa using hpk
      rw [if_neg hpk]
      have h' : mapHas rest k = true := by simpa [hpk0] using h
      simp [← ih h']

/-!  ## Lemmas about `checkAlert` -/

theorem checkAlert_of_not_active {a : Alert} {p : Int}
    (h : a.status ≠ .active) : checkAlert a p = (false, a) := by
  simp [checkAlert, h]

theorem checkAlert_snd_of_active {a : Alert} {p : Int}
    (h : a.status = .active) :
    (checkAlert a p).2 = { a with lastPrice := some p } := by
  simp [checkAlert, h]

theorem checkAlert_active_of_fire {a : Alert} {p : Int}
    (h : (checkAlert a p).1 = true) : a.status = .active := by
  by_contra hne
  rw [checkAlert_of_not_active hne] at h
  exact Bool.false_ne_true h

theorem checkAlert_fst_above {a : Alert} {p : Int}
    (hs : a.status = .active) (ht : a.type = .above) :
    (checkAlert a p).1 = decide (a.price ≤ p) := by
  have h1 : (AlertType.above == AlertType.below) = false := rfl
  have h2 : (AlertType.above == AlertType.cross) = false := rfl
  simp [checkAlert, hs, ht, ge_iff_le, h1, h2]

theorem checkAlert_fst_below {a : Alert} {p : Int}
    (hs : a.status = .active) (ht : a.type = .below) :
    (checkAlert a p).1 = decide (p ≤ a.price) := by
  have h1 : (AlertType.below == AlertType.above) = false := rfl
  have h2 : (AlertType.below == AlertType.cross) = false := rfl
  simp [checkAlert, hs, ht, h1, h2]

theorem checkAlert_fst_cross_none {a : Alert} {p : Int}
    (hs : a.status = .active) (ht : a.type = .cross)
    (hlp : a.lastPrice = none) : (checkAlert a p).1 = false := by
  simp [checkAlert, hs, ht, hlp]

theorem checkAlert_fst_cross_some {a : Alert} {p lp : Int}
    (hs : a.status = .active) (ht : a.type = .cross)
    (hlp : a.lastPrice = some lp) :
    (checkAlert a p).1 =
      ((decide (lp < a.price) && decide (a.price ≤ p)) ||
       (decide (a.price < lp) && decide (p ≤ a.price))) := by
  simp [checkAlert, hs, ht, hlp, ge_iff_le]

theorem cooldownKey_checkAlert {a : Alert} {p : Int} :
    cooldownKey (checkAlert a p).2 = cooldownKey a := by
  by_cases hs : a.status = .active
  · simp [checkAlert, hs, cooldownKey]
  · simp [checkAlert_of_not_active hs]

/-!  ## Characterization of the `processPriceUpdate` loop body -/

theorem processAlertStep_not_found {m : AlertManager}
    {evs : List DispatchEvent} {id : String} {price : Int} {now : Nat}
    (h : mapGet m.alerts id = none) :
    processAlertStep m evs id price now = (m, evs) := by
  simp [processAlertStep, h]

theorem processAlertStep_nofire {m : AlertManager}
    {evs : List DispatchEvent} {id : String} {a : Alert} {price : Int}
    {now : Nat} (hget : mapGet m.alerts id = some a)
    (hf : (checkAlert a price).1 = false) :
    processAlertStep m evs id price now =
      ({ m with alerts := mapSet m.alerts id (checkAlert a price).2 }, evs) := by
  simp [processAlertStep, hget, hf]

theorem processAlertStep_cooldown {m : AlertManager}
    {evs : List DispatchEvent} {id : String} {a : Alert} {price : Int}
    {now : Nat} (hget : mapGet m.alerts id = some a)
    (hf : (checkAlert a price).1 = true)
    (hcd : inCooldown m (cooldownKey a) now = true) :
    processAlertStep m evs id price now =
      ({ m with alerts := mapSet m.alerts id (checkAlert a price).2 }, evs) := by
  have hkey : cooldownKey (checkAlert a price).2 = cooldownKey a :=
    cooldownKey_checkAlert
  simp [processAlertStep, hget, hf, hkey, hcd]

theorem processAlertStep_fire {m : AlertManager}
    {evs : List DispatchEvent} {id : String} {a : Alert} {price : Int}
    {now : Nat} (hget : mapGet m.alerts id = some a)
    (hf : (checkAlert a price).1 = true)
    (hcd : inCooldown m (cooldownKey a) now = false) :
    processAlertStep m evs id price now =
      ({ m with
          alerts := mapSet m.alerts id
            (if a.repeatFlag then
              { triggeredSnapshot a price now with status := .active }
             else triggeredSnapshot a price now)
          lastAlertTimes := mapSet m.lastAlertTimes (cooldownKey a) now
          alertHistory :=
            trimHist (m.alertHistory ++ [triggeredSnapshot a price now]) },
       evs ++ [⟨triggeredSnapshot a price now,
               sendAlert m.notifiers (triggeredSnapshot a price now)⟩]) := by
  have hact : a.status = .active := checkAlert_active_of_fire hf
  have hsnd : (checkAlert a price).2 = { a with lastPrice := some price } :=
    checkAlert_snd_of_active hact
  have hkey2 : cooldownKey { a with lastPrice := some price } = cooldownKey a :=
    rfl
  simp only [processAlertStep, hget, hsnd, hkey2, hf, if_true, hcd,
    Bool.false_eq_true, if_false, triggeredSnapshot]

theorem processPriceUpdate_no_active (price : Int) (now : Nat)
    {m : AlertManager} {s : String}
    (h : getAlerts m { symbol := some s, status := some .active } = []) :
    processPriceUpdate m s price now = (m, []) := by
  simp [processPriceUpdate, h]

theorem processPriceUpdate_ids {m : AlertManager} {s : String}
    {price : Int} {now : Nat} :
    processPriceUpdate m s price now =
      ((getAlerts m { symbol := some s, status := some .active }).map
        (·.id)).foldl (fun acc i => processAlertStep acc.1 acc.2 i price now)
        (m, []) := rfl

/-!  ## Supporting lemmas for the claims -/

theorem trimHist_getLast (h : List Alert) (e : Alert) :
    (trimHist (h ++ [e])).getLast? = some e := by
  unfold trimHist
  split
  · rename_i hlen
    cases h with
    | nil => simp at hlen
    | cons x t =>
      rw [List.cons_append, List.tail_cons]
      exact List.getLast?_concat t
  · exact List.getLast?_concat h

theorem trimHist_length_le (h : List Alert) (hle : h.length ≤ 100) :
    (trimHist (h ++ [e])).length ≤ 100 := by
  unfold trimHist
  split
  · rename_i hlen
    simp only [List.length_tail, List.length_append, List.length_singleton]
    omega
  · rename_i hlen
    simp only [List.length_append, List.length_singleton]
    simp only [not_lt, List.length_append, List.length_singleton] at hlen
    omega

theorem sendAttempts_length (msg : Alert × String) :
    ∀ ns : List NotifierFn, (sendAttempts msg ns).length = ns.length := by
  intro ns
  induction ns with
  | nil => rfl
  | cons n rest ih =>
    rw [sendAttempts]
    cases n msg <;> simp [ih]

theorem sendAttempts_append (msg : Alert × String) (ns1 ns2 : List NotifierFn) :
    sendAttempts msg (ns1 ++ ns2) =
      sendAttempts msg ns1 ++ sendAttempts msg ns2 := by
  induction ns1 with
  | nil => rfl
  | cons n rest ih =>
    rw [List.cons_append, sendAttempts, sendAttempts]
    cases n msg <;> simp [ih]

theorem checkAlert_active_of_fire' {a : Alert} {p : Int}
    (h : (checkAlert a p).1 = true) : ((checkAlert a p).2).status = .active := by
  have hact := checkAlert_active_of_fire h
  rw [checkAlert_snd_of_active hact]
  exact hact

/-!  ## C5: capacity boundary of `addAlert` -/

/-- C5: when the store already holds the configured maximum number of
alerts, `addAlert` fails with the capacity error, performs no state change,
and leaves the store at exactly `max` alerts — no eviction occurs. -/
theorem c5_capacity_error (m : AlertManager) (cfg : AlertConfig)
    (freshId : String) (now : Nat) (h : m.alerts.length = m.maxAlerts) :
    addAlert m cfg freshId now =
      .error ("Maximum number of alerts (" ++ toString m.maxAlerts ++ ") reached") ∧
    applyOp m (.add cfg freshId now) = m ∧
    (applyOp m (.add cfg freshId now)).alerts.length = m.maxAlerts := by
  have hge : m.alerts.length ≥ m.maxAlerts := le_of_eq h.symm
  have herr : addAlert m cfg freshId now =
      .error ("Maximum number of alerts (" ++ toString m.maxAlerts ++ ") reached") := by
    simp [addAlert, hge]
  refine ⟨herr, ?_, ?_⟩
  · simp [applyOp, herr]
  · simp [applyOp, herr, h]

/-- Witness for C5 at a one-alert store whose maximum is one. -/
theorem c5_capacity_error_witness :
    addAlert { singleAlertMgr (freshAlert "a1" "BTCUSDT" 50000 .above) 1000
               with maxAlerts := 1 }
        { id := some "a2", symbol := "ETHUSDT", price := 3000,
          type := some .above, repeatFlag := false } "f" 5 =
      .error "Maximum number of alerts (1) reached" ∧
    applyOp { singleAlertMgr (freshAlert "a1" "BTCUSDT" 50000 .above) 1000
              with maxAlerts := 1 }
        (.add { id := some "a2", symbol := "ETHUSDT", price := 3000,
                type := some .above, repeatFlag := false } "f" 5) =
      { singleAlertMgr (freshAlert "a1" "BTCUSDT" 50000 .above) 1000
        with maxAlerts := 1 } ∧
    (applyOp { singleAlertMgr (freshAlert "a1" "BTCUSDT" 50000 .above) 1000
               with maxAlerts := 1 }
        (.add { id := some "a2", symbol := "ETHUSDT", price := 3000,
                type := some .above, repeatFlag := false } "f" 5)).alerts.length = 1 :=
  c5_capacity_error _ _ "f" 5 (by decide)

/-!  ## C9: removal idempotence -/

/-- C9: removing an absent alert id reports "not found" (`false`) and
leaves the store unchanged (and, being a total function, cannot throw);
removing a present id removes exactly that alert and returns `true`. -/
theorem c9_remove_idempotent (m : AlertManager) (id : String) :
    (mapHas m.alerts id = false → removeAlert m id = (false, m)) ∧
    (∀ a : Alert, (m.alerts.map Prod.fst).Nodup →
      mapGet m.alerts id = some a →
      (removeAlert m id).1 = true ∧
      mapGet (removeAlert m id).2.alerts id = none ∧
      (removeAlert m id).2.alerts.length + 1 = m.alerts.length ∧
      ∀ id2 : String, id2 ≠ id →
        mapGet (removeAlert m id).2.alerts id2 = mapGet m.alerts id2) := by
  constructor
  · intro h
    simp [removeAlert, h]
  · intro a hnd hget
    have hh := mapHas_of_mapGet hget
    simp only [removeAlert, hh, if_true]
    refine ⟨by simp, mapGet_mapDel_self hnd, length_mapDel_of_has hh, ?_⟩
    intro id2 hne
    exact mapGet_mapDel_ne (fun he => hne he.symm) m.alerts

/-- Witness for C9: removing "zz" from a one-alert store is a no-op
reporting `false`; removing the present "a1" returns `true`. -/
theorem c9_remove_idempotent_witness :
    removeAlert (singleAlertMgr (freshAlert "a1" "BTCUSDT" 50000 .above) 1000) "zz" =
      (false, singleAlertMgr (freshAlert "a1" "BTCUSDT" 50000 .above) 1000) ∧
    (removeAlert (singleAlertMgr (freshAlert "a1" "BTCUSDT" 50000 .above) 1000) "a1").1 =
      true :=
  ⟨(c9_remove_idempotent
      (singleAlertMgr (freshAlert "a1" "BTCUSDT" 50000 .above) 1000) "zz").1
      (by decide),
   ((c9_remove_idempotent
      (singleAlertMgr (freshAlert "a1" "BTCUSDT" 50000 .above) 1000) "a1").2
      (freshAlert "a1" "BTCUSDT" 50000 .above) (by decide) (by decide)).1⟩

/-!  ## C10: `addAlert` silently replaces an existing id -/

/-- C10: adding a config whose id is already present, with the store below
its maximum, succeeds without error and silently replaces the existing
alert under that id: the total count does not increase, the previous
record is discarded, and all other entries are untouched. -/
theorem c10_add_replaces (m : AlertManager) (cfg : AlertConfig)
    (freshId : String) (now : Nat) (id : String) (old : Alert)
    (hid : cfg.id = some id)
    (hget : mapGet m.alerts id = some old)
    (hlt : m.alerts.length < m.maxAlerts) :
    addAlert m cfg freshId now =
      .ok (buildAlert cfg freshId now,
        { m with alerts := mapSet m.alerts id (buildAlert cfg freshId now) }) ∧
    (mapSet m.alerts id (buildAlert cfg freshId now)).length =
      m.alerts.length ∧
    mapGet (mapSet m.alerts id (buildAlert cfg freshId now)) id =
      some (buildAlert cfg freshId now) ∧
    ∀ id2 : String, id2 ≠ id →
      mapGet (mapSet m.alerts id (buildAlert cfg freshId now)) id2 =
        mapGet m.alerts id2 := by
  have hnle : ¬ m.alerts.length ≥ m.maxAlerts := not_le.mpr hlt
  refine ⟨?_, length_mapSet_of_has (mapHas_of_mapGet hget),
    mapGet_mapSet_self m.alerts, ?_⟩
  · simp [addAlert, hnle, hid]
  · intro id2 hne
    exact mapGet_mapSet_ne (fun he => hne he.symm) m.alerts

/-- Witness for C10: re-adding id "a1" over a one-alert store below
capacity replaces the record and keeps the count at one. -/
theorem c10_add_replaces_witness :
    addAlert (singleAlertMgr (freshAlert "a1" "BTCUSDT" 50000 .above) 1000)
        { id := some "a1", symbol := "BTCUSDT", price := 60000,
          type := some .above, repeatFlag := false } "f" 7 =
      .ok (buildAlert
            { id := some "a1", symbol := "BTCUSDT", price := 60000,
              type := some .above, repeatFlag := false } "f" 7,
        { singleAlertMgr (freshAlert "a1" "BTCUSDT" 50000 .above) 1000 with
            alerts := mapSet
              (singleAlertMgr (freshAlert "a1" "BTCUSDT" 50000 .above) 1000).alerts
              "a1"
              (buildAlert
                { id := some "a1", symbol := "BTCUSDT", price := 60000,
                  type := some .above, repeatFlag := false } "f" 7) }) ∧
    (mapSet (singleAlertMgr (freshAlert "a1" "BTCUSDT" 50000 .above) 1000).alerts
        "a1"
        (buildAlert
          { id := some "a1", symbol := "BTCUSDT", price := 60000,
            type := some .above, repeatFlag := false } "f" 7)).length =
      (singleAlertMgr (freshAlert "a1" "BTCUSDT" 50000 .above) 1000).alerts.length :=
  ⟨(c10_add_replaces _ _ "f" 7 "a1" (freshAlert "a1" "BTCUSDT" 50000 .above)
      (by decide) (by decide) (by decide)).1,
   (c10_add_replaces _ _ "f" 7 "a1" (freshAlert "a1" "BTCUSDT" 50000 .above)
      (by decide) (by decide) (by decide)).2.1⟩

/-!  ## C6: per-notifier failure isolation in `sendAlert` -/

/-- C6: `sendAlert` builds the message text once and offers it to every
registered notifier; a notifier that throws is caught in place (its error
is recorded and the loop proceeds), so total delivery attempts always
equal the number of notifiers, no error propagates (the function is total
with a plain list result), and a throwing notifier leaves the already
committed `triggered` status untouched. -/
theorem c6_dispatch_isolation :
    (∀ (ns : List NotifierFn) (alert : Alert),
      (sendAlert ns alert).length = ns.length) ∧
    (∀ (ns1 ns2 : List NotifierFn) (n : NotifierFn) (alert : Alert) (e : String),
      n (alert, formatAlertMessage alert) = .error e →
      sendAlert (ns1 ++ n :: ns2) alert =
        sendAlert ns1 alert ++ .error e :: sendAlert ns2 alert) ∧
    (∀ (m : AlertManager) (id : String) (a : Alert) (price : Int) (now : Nat),
      mapGet m.alerts id = some a →
      (checkAlert a price).1 = true →
      inCooldown m (cooldownKey a) now = false →
      a.repeatFlag = false →
      (mapGet (processAlertStep m [] id price now).1.alerts id).map Alert.status =
        some .triggered) := by
  refine ⟨?_, ?_, ?_⟩
  · intro ns alert
    exact sendAttempts_length _ ns
  · intro ns1 ns2 n alert e he
    unfold sendAlert
    rw [sendAttempts_append, sendAttempts, he]
  · intro m id a price now hget hf hcd hrep
    rw [processAlertStep_fire hget hf hcd]
    simp only [hrep, Bool.false_eq_true, if_false]
    rw [mapGet_mapSet_self]
    rfl

/-- Witness for C6: a single always-throwing notifier next to a succeeding
one; the throwing alert store still ends `triggered`. -/
theorem c6_dispatch_isolation_witness :
    (sendAlert [fun _ => .error "down", fun _ => .ok ()]
        (freshAlert "a1" "BTCUSDT" 50000 .above)).length = 2 ∧
    sendAlert ([] ++ (fun _ => .error "down") :: [fun _ => .ok ()])
        (freshAlert "a1" "BTCUSDT" 50000 .above) =
      sendAlert [] (freshAlert "a1" "BTCUSDT" 50000 .above) ++
        .error "down" ::
          sendAlert [fun _ => .ok ()] (freshAlert "a1" "BTCUSDT" 50000 .above) ∧
    (mapGet (processAlertStep
        { singleAlertMgr (freshAlert "a1" "BTCUSDT" 50000 .above) 1000 with
            notifiers := [fun _ => .error "down"] }
        [] "a1" 50500 9).1.alerts "a1").map Alert.status = some .triggered :=
  ⟨c6_dispatch_isolation.1 [fun _ => .error "down", fun _ => .ok ()]
      (freshAlert "a1" "BTCUSDT" 50000 .above),
   c6_dispatch_isolation.2.1 [] [fun _ => .ok ()] (fun _ => .error "down")
      (freshAlert "a1" "BTCUSDT" 50000 .above) "down" rfl,
   c6_dispatch_isolation.2.2
      { singleAlertMgr (freshAlert "a1" "BTCUSDT" 50000 .above) 1000 with
          notifiers := [fun _ => .error "down"] }
      "a1" (freshAlert "a1" "BTCUSDT" 50000 .above) 50500 9
      (by decide) (by decide) (by decide) (by decide)⟩

/-!  ## C3: threshold semantics of `above` and `below` alerts -/

/-- C3: for an `active` alert whose cooldown key is cold, the loop body of
`processPriceUpdate` fires (one dispatch cycle, a history entry appended,
the stored record transitioned through `triggered`) iff the observed price
is at-or-above the target for `above`, and at-or-below it for `below`;
when it does not fire, history and status are untouched. -/
theorem c3_threshold_fire_iff (m : AlertManager) (id : String) (a : Alert)
    (price : Int) (now : Nat)
    (hget : mapGet m.alerts id = some a)
    (hact : a.status = .active)
    (hcd : inCooldown m (cooldownKey a) now = false) :
    (a.type = .above →
      ((processAlertStep m [] id price now).2.length = 1 ↔ a.price ≤ price)) ∧
    (a.type = .below →
      ((processAlertStep m [] id price now).2.length = 1 ↔ price ≤ a.price)) ∧
    ((processAlertStep m [] id price now).2.length = 1 →
      (processAlertStep m [] id price now).1.alertHistory.getLast? =
        some (triggeredSnapshot a price now) ∧
      mapGet (processAlertStep m [] id price now).1.alerts id =
        some (if a.repeatFlag then
                { triggeredSnapshot a price now with status := .active }
              else triggeredSnapshot a price now) ∧
      (processAlertStep m [] id price now).2 =
        [⟨triggeredSnapshot a price now,
          sendAlert m.notifiers (triggeredSnapshot a price now)⟩]) ∧
    ((processAlertStep m [] id price now).2 = [] →
      (processAlertStep m [] id price now).1.alertHistory = m.alertHistory ∧
      mapGet (processAlertStep m [] id price now).1.alerts id =
        some ((checkAlert a price).2) ∧
      ((checkAlert a price).2).status = .active) := by
  have hfire1 : (processAlertStep m [] id price now).2.length = 1 →
      (checkAlert a price).1 = true := by
    intro h1
    by_contra hff
    have hf0 : (checkAlert a price).1 = false := by
      simpa using hff
    rw [processAlertStep_nofire hget hf0] at h1
    simp at h1
  refine ⟨?_, ?_, ?_, ?_⟩
  · intro ht
    constructor
    · intro h1
      have hf := hfire1 h1
      rw [checkAlert_fst_above hact ht] at hf
      exact of_decide_eq_true hf
    · intro hle
      have hf : (checkAlert a price).1 = true := by
        rw [checkAlert_fst_above hact ht]
        exact decide_eq_true hle
      rw [processAlertStep_fire hget hf hcd]
      simp
  · intro ht
    constructor
    · intro h1
      have hf := hfire1 h1
      rw [checkAlert_fst_below hact ht] at hf
      exact of_decide_eq_true hf
    · intro hle
      have hf : (checkAlert a price).1 = true := by
        rw [checkAlert_fst_below hact ht]
        exact decide_eq_true hle
      rw [processAlertStep_fire hget hf hcd]
      simp
  · intro h1
    have hf := hfire1 h1
    rw [processAlertStep_fire hget hf hcd]
    exact ⟨trimHist_getLast m.alertHistory _, mapGet_mapSet_self m.alerts, rfl⟩
  · intro h0
    have hf0 : (checkAlert a price).1 = false := by
      by_contra hff
      have hf : (checkAlert a price).1 = true := by simpa using hff
      rw [processAlertStep_fire hget hf hcd] at h0
      simp at h0
    rw [processAlertStep_nofire hget hf0]
    refine ⟨rfl, mapGet_mapSet_self m.alerts, ?_⟩
    rw [checkAlert_snd_of_active hact]
    exact hact

/-- Witness for C3: a BTCUSDT `above` alert at 50000 does not fire at
49000 and fires at 50500. -/
theorem c3_threshold_fire_iff_witness :
    ((processAlertStep
        (singleAlertMgr (freshAlert "a1" "BTCUSDT" 50000 .above) 1000)
        [] "a1" 50500 9).2.length = 1 ↔ (50000 : Int) ≤ 50500) ∧
    ((processAlertStep
        (singleAlertMgr (freshAlert "a1" "BTCUSDT" 50000 .above) 1000)
        [] "a1" 49000 9).2.length = 1 ↔ (50000 : Int) ≤ 49000) :=
  ⟨(c3_threshold_fire_iff
      (singleAlertMgr (freshAlert "a1" "BTCUSDT" 50000 .above) 1000)
      "a1" (freshAlert "a1" "BTCUSDT" 50000 .above) 50500 9
      (by decide) (by decide) (by decide)).1 (by decide),
   (c3_threshold_fire_iff
      (singleAlertMgr (freshAlert "a1" "BTCUSDT" 50000 .above) 1000)
      "a1" (freshAlert "a1" "BTCUSDT" 50000 .above) 49000 9
      (by decide) (by decide) (by decide)).1 (by decide)⟩

/-!  ## C1: two alerts sharing one cooldown key, one update -/

/-- C1 counterexample: two alerts with distinct ids (ETHUSDT, 3000, above)
in a fresh store, one price update of 3100 at time 1000.  Exactly one
dispatch cycle fires, but only the first alert ends `triggered`: the
second alert's match falls inside the cooldown window just opened under
the shared (symbol, type, price) key and is skipped before any status
change, refuting the claim that both ids transition to `triggered`. -/
theorem c1_two_alerts_counterexample :
    (processPriceUpdate
        (twoAlertMgr (freshAlert "a1" "ETHUSDT" 3000 .above)
          (freshAlert "a2" "ETHUSDT" 3000 .above) 3600000)
        "ETHUSDT" 3100 1000).2.length = 1 ∧
    (mapGet (processPriceUpdate
        (twoAlertMgr (freshAlert "a1" "ETHUSDT" 3000 .above)
          (freshAlert "a2" "ETHUSDT" 3000 .above) 3600000)
        "ETHUSDT" 3100 1000).1.alerts "a1").map Alert.status =
      some .triggered ∧
    (mapGet (processPriceUpdate
        (twoAlertMgr (freshAlert "a1" "ETHUSDT" 3000 .above)
          (freshAlert "a2" "ETHUSDT" 3000 .above) 3600000)
        "ETHUSDT" 3100 1000).1.alerts "a2").map Alert.status =
      some .active ∧
    ¬ (mapGet (processPriceUpdate
        (twoAlertMgr (freshAlert "a1" "ETHUSDT" 3000 .above)
          (freshAlert "a2" "ETHUSDT" 3000 .above) 3600000)
        "ETHUSDT" 3100 1000).1.alerts "a2").map Alert.status =
      some .triggered := by
  decide

/-- C1 (amended): adding two `above` alerts with distinct ids and
identical (symbol, type, price) to an empty store and processing one
matching update yields exactly one dispatch cycle; the first alert
transitions to `triggered`, while the second remains `active` because its
match is silently skipped under the shared cooldown key. -/
theorem c1_two_alerts_shared_cooldown_amended
    (a1 a2 : Alert) (cd : Nat) (price : Int) (now : Nat)
    (hne : a1.id ≠ a2.id)
    (hsym : a2.symbol = a1.symbol)
    (hprice : a2.price = a1.price)
    (ht1 : a1.type = .above) (ht2 : a2.type = .above)
    (hs1 : a1.status = .active) (hs2 : a2.status = .active)
    (hrep : a1.repeatFlag = false)
    (hle : a1.price ≤ price)
    (hnow : 0 < now) (hcdpos : 0 < cd) :
    (processPriceUpdate (twoAlertMgr a1 a2 cd) a1.symbol price now).2.length = 1 ∧
    (mapGet (processPriceUpdate (twoAlertMgr a1 a2 cd) a1.symbol price
        now).1.alerts a1.id).map Alert.status = some .triggered ∧
    (mapGet (processPriceUpdate (twoAlertMgr a1 a2 cd) a1.symbol price
        now).1.alerts a2.id).map Alert.status = some .active := by
  have hne21 : a2.id ≠ a1.id := fun he => hne he.symm
  have hids : getAlerts (twoAlertMgr a1 a2 cd)
      { symbol := some a1.symbol, status := some .active } = [a1, a2] := by
    simp [getAlerts, twoAlertMgr, matchesFilter, hsym, hs1, hs2]
  have hget1 : mapGet (twoAlertMgr a1 a2 cd).alerts a1.id = some a1 := by
    simp [twoAlertMgr, mapGet_cons]
  have hf1 : (checkAlert a1 price).1 = true := by
    rw [checkAlert_fst_above hs1 ht1]
    exact decide_eq_true hle
  have hcd1 : inCooldown (twoAlertMgr a1 a2 cd) (cooldownKey a1) now = false := by
    simp [inCooldown, twoAlertMgr, mapGet]
  have hf2 : (checkAlert a2 price).1 = true := by
    rw [checkAlert_fst_above hs2 ht2, hprice]
    exact decide_eq_true hle
  have hkey : cooldownKey a2 = cooldownKey a1 := by
    simp [cooldownKey, hsym, hprice, ht1, ht2]
  have hget2 : ∀ v : Alert,
      mapGet (mapSet (twoAlertMgr a1 a2 cd).alerts a1.id v) a2.id = some a2 := by
    intro v
    rw [mapGet_mapSet_ne hne]
    have hne12 : (a1.id == a2.id) = false := by simpa using hne
    simp [twoAlertMgr, mapGet_cons, hne12]
  rw [processPriceUpdate_ids, hids]
  simp only [List.map_cons, List.map_nil, List.foldl_cons, List.foldl_nil]
  rw [processAlertStep_fire hget1 hf1 hcd1]
  rw [processAlertStep_cooldown (hget2 _) hf2 (by
    have hnz : (now != 0) = true := by simpa using Nat.pos_iff_ne_zero.mp hnow
    simp [inCooldown, twoAlertMgr, mapSet, mapGet_cons, hkey, hnz,
      Nat.sub_self, hcdpos])]
  refine ⟨by simp, ?_, ?_⟩
  · rw [mapGet_mapSet_ne hne21, mapGet_mapSet_self]
    simp [hrep, triggeredSnapshot]
  · rw [mapGet_mapSet_self]
    rw [checkAlert_snd_of_active hs2]
    simp [hs2]

/-- Witness for the amended C1 at the concrete spec scenario
(ETHUSDT, 3000, above, price 3100, time 1000, default cooldown). -/
theorem c1_two_alerts_shared_cooldown_amended_witness :
    (processPriceUpdate
        (twoAlertMgr (freshAlert "a1" "ETHUSDT" 3000 .above)
          (freshAlert "a2" "ETHUSDT" 3000 .above) 3600000)
        "ETHUSDT" 3100 1000).2.length = 1 ∧
    (mapGet (processPriceUpdate
        (twoAlertMgr (freshAlert "a1" "ETHUSDT" 3000 .above)
          (freshAlert "a2" "ETHUSDT" 3000 .above) 3600000)
        "ETHUSDT" 3100 1000).1.alerts "a1").map Alert.status =
      some .triggered ∧
    (mapGet (processPriceUpdate
        (twoAlertMgr (freshAlert "a1" "ETHUSDT" 3000 .above)
          (freshAlert "a2" "ETHUSDT" 3000 .above) 3600000)
        "ETHUSDT" 3100 1000).1.alerts "a2").map Alert.status =
      some .active :=
  c1_two_alerts_shared_cooldown_amended
    (freshAlert "a1" "ETHUSDT" 3000 .above)
    (freshAlert "a2" "ETHUSDT" 3000 .above) 3600000 3100 1000
    (by decide) (by decide) (by decide) (by decide) (by decide)
    (by decide) (by decide) (by decide) (by decide) (by decide) (by decide)

/-!  ## C2: cooldown idempotence -/

/-- After a first firing at time `t0`, every further matching update of an
`above` alert inside the cooldown window produces no dispatch event and no
history entry: a still-`triggered` alert is filtered out of the snapshot,
and a `repeat`-reset (`active`) alert matches but is skipped by the
cooldown test. -/
theorem c2_tail_no_events (a : Alert) (cd t0 : Nat)
    (hta : a.type = .above) :
    ∀ (us : List (Int × Nat)) (b : Alert) (hist : List Alert)
      (acc : List DispatchEvent),
      b.id = a.id → b.symbol = a.symbol → b.type = .above →
      b.price = a.price → 0 < t0 →
      (∀ u ∈ us, a.price ≤ u.1) → (∀ u ∈ us, u.2 - t0 < cd) →
      (us.foldl (fun acc2 u =>
          let r := processPriceUpdate acc2.1 a.symbol u.1 u.2
          (r.1, acc2.2 ++ r.2))
        ({ alerts := [(a.id, b)], notifiers := [], alertHistory := hist,
           maxAlerts := 100, cooldown := cd,
           lastAlertTimes := [(cooldownKey a, t0)] }, acc)).2 = acc ∧
      (us.foldl (fun acc2 u =>
          let r := processPriceUpdate acc2.1 a.symbol u.1 u.2
          (r.1, acc2.2 ++ r.2))
        ({ alerts := [(a.id, b)], notifiers := [], alertHistory := hist,
           maxAlerts := 100, cooldown := cd,
           lastAlertTimes := [(cooldownKey a, t0)] }, acc)).1.alertHistory =
        hist := by
  intro us
  induction us with
  | nil =>
    intro b hist acc _ _ _ _ _ _ _
    exact ⟨rfl, rfl⟩
  | cons u rest ih =>
    intro b hist acc hid hsym htype hprice ht0 hcond hwin
    have hcond' : ∀ v ∈ rest, a.price ≤ v.1 := fun v hv =>
      hcond v (List.mem_cons_of_mem u hv)
    have hwin' : ∀ v ∈ rest, v.2 - t0 < cd := fun v hv =>
      hwin v (List.mem_cons_of_mem u hv)
    rw [List.foldl_cons]
    cases hstat : b.status with
    | triggered =>
      have hga : getAlerts
          { alerts := [(a.id, b)], notifiers := [], alertHistory := hist,
            maxAlerts := 100, cooldown := cd,
            lastAlertTimes := [(cooldownKey a, t0)] }
          { symbol := some a.symbol, status := some .active } = [] := by
        simp [getAlerts, matchesFilter, hstat]
      have hpp := processPriceUpdate_no_active u.1 u.2 hga
      simp only [hpp, List.append_nil]
      exact ih b hist acc hid hsym htype hprice ht0 hcond' hwin'
    | active =>
      have hga : getAlerts
          { alerts := [(a.id, b)], notifiers := [], alertHistory := hist,
            maxAlerts := 100, cooldown := cd,
            lastAlertTimes := [(cooldownKey a, t0)] }
          { symbol := some a.symbol, status := some .active } = [b] := by
        simp [getAlerts, matchesFilter, hstat, hsym]
      have hget : mapGet
          ({ alerts := [(a.id, b)], notifiers := [], alertHistory := hist,
             maxAlerts := 100, cooldown := cd,
             lastAlertTimes := [(cooldownKey a, t0)] } :
            AlertManager).alerts b.id = some b := by
        simp [mapGet_cons, hid]
      have hf : (checkAlert b u.1).1 = true := by
        rw [checkAlert_fst_above hstat htype, hprice]
        exact decide_eq_true (hcond u (List.mem_cons_self u rest))
      have hkey : cooldownKey b = cooldownKey a := by
        simp [cooldownKey, hsym, hprice, htype, hta]
      have hcdt : inCooldown
          { alerts := [(a.id, b)], notifiers := [], alertHistory := hist,
            maxAlerts := 100, cooldown := cd,
            lastAlertTimes := [(cooldownKey a, t0)] }
          (cooldownKey b) u.2 = true := by
        have hnz : (t0 != 0) = true := by
          simpa using Nat.pos_iff_ne_zero.mp ht0
        simp [inCooldown, hkey, mapGet_cons, hnz,
          hwin u (List.mem_cons_self u rest)]
      have hpp : processPriceUpdate
          { alerts := [(a.id, b)], notifiers := [], alertHistory := hist,
            maxAlerts := 100, cooldown := cd,
            lastAlertTimes := [(cooldownKey a, t0)] } a.symbol u.1 u.2 =
          ({ alerts := [(a.id, { b with lastPrice := some u.1 })],
             notifiers := [], alertHistory := hist, maxAlerts := 100,
             cooldown := cd, lastAlertTimes := [(cooldownKey a, t0)] }, []) := by
        rw [processPriceUpdate_ids, hga]
        simp only [List.map_cons, List.map_nil, List.foldl_cons,
          List.foldl_nil]
        rw [processAlertStep_cooldown hget hf hcdt]
        rw [checkAlert_snd_of_active hstat]
        simp [mapSet, hid]
      simp only [hpp, List.append_nil]
      exact ih { b with lastPrice := some u.1 } hist acc hid hsym htype
        hprice ht0 hcond' hwin'

/-- C2: N matching price updates within one cooldown window produce
exactly one dispatch event and exactly one history entry (not N), also
when `repeat` is set; and during cooldown a condition match changes only
`lastPrice` — no status change, no history entry, no dispatch. -/
theorem c2_cooldown_idempotence :
    (∀ (a : Alert) (cd : Nat) (p0 : Int) (t0 : Nat) (us : List (Int × Nat)),
      a.type = .above → a.status = .active → a.price ≤ p0 → 0 < t0 →
      (∀ u ∈ us, a.price ≤ u.1) → (∀ u ∈ us, u.2 - t0 < cd) →
      (runUpdates (singleAlertMgr a cd) a.symbol ((p0, t0) :: us)).2.length = 1 ∧
      (runUpdates (singleAlertMgr a cd) a.symbol
        ((p0, t0) :: us)).1.alertHistory.length = 1) ∧
    (∀ (m : AlertManager) (evs : List DispatchEvent) (id : String) (b : Alert)
        (price : Int) (now : Nat),
      mapGet m.alerts id = some b →
      (checkAlert b price).1 = true →
      inCooldown m (cooldownKey b) now = true →
      processAlertStep m evs id price now =
        ({ m with alerts := mapSet m.alerts id (checkAlert b price).2 }, evs) ∧
      ((checkAlert b price).2).status = b.status) := by
  constructor
  · intro a cd p0 t0 us hta hsa hle ht0 hcond hwin
    have hga : getAlerts (singleAlertMgr a cd)
        { symbol := some a.symbol, status := some .active } = [a] := by
      simp [getAlerts, singleAlertMgr, matchesFilter, hsa]
    have hget : mapGet (singleAlertMgr a cd).alerts a.id = some a := by
      simp [singleAlertMgr, mapGet_cons]
    have hf : (checkAlert a p0).1 = true := by
      rw [checkAlert_fst_above hsa hta]
      exact decide_eq_true hle
    have hcd0 : inCooldown (singleAlertMgr a cd) (cooldownKey a) t0 = false := by
      simp [inCooldown, singleAlertMgr, mapGet]
    have hpp1 : processPriceUpdate (singleAlertMgr a cd) a.symbol p0 t0 =
        ({ alerts := [(a.id,
              if a.repeatFlag then
                { triggeredSnapshot a p0 t0 with status := .active }
              else triggeredSnapshot a p0 t0)],
           notifiers := [], alertHistory := [triggeredSnapshot a p0 t0],
           maxAlerts := 100, cooldown := cd,
           lastAlertTimes := [(cooldownKey a, t0)] },
         [⟨triggeredSnapshot a p0 t0, []⟩]) := by
      rw [processPriceUpdate_ids, hga]
      simp only [List.map_cons, List.map_nil, List.foldl_cons, List.foldl_nil]
      rw [processAlertStep_fire hget hf hcd0]
      simp [singleAlertMgr, mapSet, trimHist, sendAlert, sendAttempts]
    simp only [runUpdates, List.foldl_cons]
    simp only [hpp1, List.nil_append]
    have htail := c2_tail_no_events a cd t0 hta us
      (if a.repeatFlag then { triggeredSnapshot a p0 t0 with status := .active }
       else triggeredSnapshot a p0 t0)
      [triggeredSnapshot a p0 t0] [⟨triggeredSnapshot a p0 t0, []⟩]
      (by cases a.repeatFlag <;> rfl) (by cases a.repeatFlag <;> rfl)
      (by cases a.repeatFlag <;> simp [triggeredSnapshot, hta])
      (by cases a.repeatFlag <;> rfl) ht0 hcond hwin
    rw [htail.1, htail.2]
    exact ⟨rfl, rfl⟩
  · intro m evs id b price now hget hf hcdt
    refine ⟨processAlertStep_cooldown hget hf hcdt, ?_⟩
    have hact := checkAlert_active_of_fire hf
    rw [checkAlert_snd_of_active hact]

/-- Witness for C2: a repeating ETHUSDT `above` alert, three matching
updates inside one window → one event, one history entry; and a concrete
in-cooldown match that only rewrites `lastPrice`. -/
theorem c2_cooldown_idempotence_witness :
    ((runUpdates
        (singleAlertMgr (freshAlert "a1" "ETHUSDT" 3000 .above true) 3600000)
        "ETHUSDT" [(3100, 1000), (3200, 2000), (3300, 3000)]).2.length = 1 ∧
     (runUpdates
        (singleAlertMgr (freshAlert "a1" "ETHUSDT" 3000 .above true) 3600000)
        "ETHUSDT"
        [(3100, 1000), (3200, 2000), (3300, 3000)]).1.alertHistory.length = 1) ∧
    processAlertStep
        { singleAlertMgr (freshAlert "a1" "ETHUSDT" 3000 .above true) 3600000
          with lastAlertTimes :=
            [(cooldownKey (freshAlert "a1" "ETHUSDT" 3000 .above true), 1000)] }
        [] "a1" 3200 2000 =
      ({ singleAlertMgr (freshAlert "a1" "ETHUSDT" 3000 .above true) 3600000
         with
          alerts := mapSet
            ({ singleAlertMgr (freshAlert "a1" "ETHUSDT" 3000 .above true)
               3600000 with lastAlertTimes :=
                [(cooldownKey (freshAlert "a1" "ETHUSDT" 3000 .above true),
                  1000)] } : AlertManager).alerts "a1"
            (checkAlert (freshAlert "a1" "ETHUSDT" 3000 .above true) 3200).2
          lastAlertTimes :=
            [(cooldownKey (freshAlert "a1" "ETHUSDT" 3000 .above true), 1000)] },
       []) :=
  ⟨(c2_cooldown_idempotence.1 (freshAlert "a1" "ETHUSDT" 3000 .above true)
      3600000 3100 1000 [(3200, 2000), (3300, 3000)]
      (by decide) (by decide) (by decide) (by decide) (by decide) (by decide)),
   ((c2_cooldown_idempotence.2
      { singleAlertMgr (freshAlert "a1" "ETHUSDT" 3000 .above true) 3600000
        with lastAlertTimes :=
          [(cooldownKey (freshAlert "a1" "ETHUSDT" 3000 .above true), 1000)] }
      [] "a1" (freshAlert "a1" "ETHUSDT" 3000 .above true) 3200 2000
      (by decide) (by decide) (by decide)).1)⟩

/-!  ## C4: cross alerts fire exactly once on a monotone pass -/

/-- After a `cross` alert has fired on a monotone ascending price path,
no later update of the run produces another event: a non-repeating alert
is `triggered` and filtered out, while a repeat-reset alert has
`lastPrice` at-or-above the target and ascending prices can no longer
cross it. -/
theorem c4_post_no_events (a : Alert) (cd : Nat) (hta : a.type = .cross) :
    ∀ (us : List (Int × Nat)) (b : Alert) (hist : List Alert)
      (tl : List (String × Nat)) (acc : List DispatchEvent),
      b.id = a.id → b.symbol = a.symbol → b.type = .cross →
      b.price = a.price →
      (b.status = .triggered ∨
        (b.status = .active ∧ ∃ q, b.lastPrice = some q ∧ a.price ≤ q ∧
          List.Chain' (fun x y => x ≤ y) (q :: us.map (·.1)))) →
      (us.foldl (fun acc2 u =>
          let r := processPriceUpdate acc2.1 a.symbol u.1 u.2
          (r.1, acc2.2 ++ r.2))
        ({ alerts := [(a.id, b)], notifiers := [], alertHistory := hist,
           maxAlerts := 100, cooldown := cd, lastAlertTimes := tl }, acc)).2 =
        acc := by
  intro us
  induction us with
  | nil =>
    intro b hist tl acc _ _ _ _ _
    rfl
  | cons u rest ih =>
    intro b hist tl acc hid hsym htype hprice hinv
    rw [List.foldl_cons]
    cases hinv with
    | inl htrig =>
      have hga : getAlerts
          { alerts := [(a.id, b)], notifiers := [], alertHistory := hist,
            maxAlerts := 100, cooldown := cd, lastAlertTimes := tl }
          { symbol := some a.symbol, status := some .active } = [] := by
        simp [getAlerts, matchesFilter, htrig]
      have hpp := processPriceUpdate_no_active u.1 u.2 hga
      simp only [hpp, List.append_nil]
      exact ih b hist tl acc hid hsym htype hprice (Or.inl htrig)
    | inr hact =>
      obtain ⟨hstat, q, hlp, hq, hchain⟩ := hact
      rw [List.map_cons, List.chain'_cons] at hchain
      have hga : getAlerts
          { alerts := [(a.id, b)], notifiers := [], alertHistory := hist,
            maxAlerts := 100, cooldown := cd, lastAlertTimes := tl }
          { symbol := some a.symbol, status := some .active } = [b] := by
        simp [getAlerts, matchesFilter, hstat, hsym]
      have hget : mapGet
          ({ alerts := [(a.id, b)], notifiers := [], alertHistory := hist,
             maxAlerts := 100, cooldown := cd, lastAlertTimes := tl } :
            AlertManager).alerts b.id = some b := by
        simp [mapGet_cons, hid]
      have hf : (checkAlert b u.1).1 = false := by
        rw [checkAlert_fst_cross_some hstat htype hlp]
        have h1 : ¬ q < b.price := by
          rw [hprice]
          exact not_lt.mpr hq
        by_cases h2 : b.price < q
        · have h3 : ¬ u.1 ≤ b.price := by
            have : b.price < u.1 := lt_of_lt_of_le h2 hchain.1
            exact not_le.mpr this
          simp [h1, h3]
        · simp [h1, h2]
      have hpp : processPriceUpdate
          { alerts := [(a.id, b)], notifiers := [], alertHistory := hist,
            maxAlerts := 100, cooldown := cd, lastAlertTimes := tl }
          a.symbol u.1 u.2 =
          ({ alerts := [(a.id, { b with lastPrice := some u.1 })],
             notifiers := [], alertHistory := hist, maxAlerts := 100,
             cooldown := cd, lastAlertTimes := tl }, []) := by
        rw [processPriceUpdate_ids, hga]
        simp only [List.map_cons, List.map_nil, List.foldl_cons,
          List.foldl_nil]
        rw [processAlertStep_nofire hget hf]
        rw [checkAlert_snd_of_active hstat]
        simp [mapSet, hid]
      simp only [hpp, List.append_nil]
      refine ih { b with lastPrice := some u.1 } hist tl acc hid hsym htype
        hprice (Or.inr ⟨hstat, u.1, rfl, le_trans hq hchain.1, hchain.2⟩)

/-- Run of a fresh-history `cross` alert whose `lastPrice` sits strictly
below the target over an ascending update list containing a sample
at-or-above the target: exactly one event is produced, at the first such
sample. -/
theorem c4_pre_run (a : Alert) (cd : Nat) (hta : a.type = .cross)
    (hsa : a.status = .active) :
    ∀ (us : List (Int × Nat)) (q : Int) (acc : List DispatchEvent)
      (ufire : Int × Nat),
      q < a.price →
      List.Chain' (fun x y => x ≤ y) (q :: us.map (·.1)) →
      us.find? (fun u => decide (a.price ≤ u.1)) = some ufire →
      (us.foldl (fun acc2 u =>
          let r := processPriceUpdate acc2.1 a.symbol u.1 u.2
          (r.1, acc2.2 ++ r.2))
        ({ alerts := [(a.id, { a with lastPrice := some q })],
           notifiers := [], alertHistory := [], maxAlerts := 100,
           cooldown := cd, lastAlertTimes := [] }, acc)).2 =
        acc ++ [⟨triggeredSnapshot a ufire.1 ufire.2, []⟩] := by
  intro us
  induction us with
  | nil =>
    intro q acc ufire _ _ hfind
    simp at hfind
  | cons u rest ih =>
    intro q acc ufire hq hchain hfind
    rw [List.map_cons, List.chain'_cons] at hchain
    have hb : ({ a with lastPrice := some q } : Alert).status = .active := hsa
    have hga : getAlerts
        { alerts := [(a.id, { a with lastPrice := some q })],
          notifiers := [], alertHistory := [], maxAlerts := 100,
          cooldown := cd, lastAlertTimes := [] }
        { symbol := some a.symbol, status := some .active } =
        [{ a with lastPrice := some q }] := by
      simp [getAlerts, matchesFilter, hsa]
    have hget : mapGet
        ({ alerts := [(a.id, { a with lastPrice := some q })],
           notifiers := [], alertHistory := [], maxAlerts := 100,
           cooldown := cd, lastAlertTimes := [] } :
          AlertManager).alerts ({ a with lastPrice := some q } : Alert).id =
        some { a with lastPrice := some q } := by
      simp [mapGet_cons]
    rw [List.foldl_cons]
    by_cases hcase : a.price ≤ u.1
    · have hfind1 : ufire = u := by
        rw [List.find?_cons_of_pos _ (by simpa using hcase)] at hfind
        exact (Option.some_injective _ hfind).symm
      have hf : (checkAlert { a with lastPrice := some q } u.1).1 = true := by
        rw [checkAlert_fst_cross_some hb hta rfl]
        simp [hq, hcase]
      have hcd0 : inCooldown
          { alerts := [(a.id, { a with lastPrice := some q })],
            notifiers := [], alertHistory := [], maxAlerts := 100,
            cooldown := cd, lastAlertTimes := [] }
          (cooldownKey { a with lastPrice := some q }) u.2 = false := by
        simp [inCooldown, mapGet]
      have hsnap : triggeredSnapshot { a with lastPrice := some q } u.1 u.2 =
          triggeredSnapshot a u.1 u.2 := rfl
      have hpp : processPriceUpdate
          { alerts := [(a.id, { a with lastPrice := some q })],
            notifiers := [], alertHistory := [], maxAlerts := 100,
            cooldown := cd, lastAlertTimes := [] } a.symbol u.1 u.2 =
          ({ alerts := [(a.id,
                if a.repeatFlag then
                  { triggeredSnapshot a u.1 u.2 with status := .active }
                else triggeredSnapshot a u.1 u.2)],
             notifiers := [], alertHistory := [triggeredSnapshot a u.1 u.2],
             maxAlerts := 100, cooldown := cd,
             lastAlertTimes := [(cooldownKey a, u.2)] },
           [⟨triggeredSnapshot a u.1 u.2, []⟩]) := by
        rw [processPriceUpdate_ids, hga]
        simp only [List.map_cons, List.map_nil, List.foldl_cons,
          List.foldl_nil]
        rw [processAlertStep_fire hget hf hcd0]
        rw [hsnap]
        have hkeyq : cooldownKey { a with lastPrice := some q } =
            cooldownKey a := rfl
        rw [hkeyq]
        simp [mapSet, trimHist, sendAlert, sendAttempts]
      simp only [hpp]
      have hpost := c4_post_no_events a cd hta rest
        (if a.repeatFlag then
          { triggeredSnapshot a u.1 u.2 with status := .active }
         else triggeredSnapshot a u.1 u.2)
        [triggeredSnapshot a u.1 u.2] [(cooldownKey a, u.2)]
        (acc ++ [⟨triggeredSnapshot a u.1 u.2, []⟩])
        (by cases a.repeatFlag <;> rfl) (by cases a.repeatFlag <;> rfl)
        (by cases a.repeatFlag <;> simp [triggeredSnapshot, hta])
        (by cases a.repeatFlag <;> rfl)
        (by
          cases hrep : a.repeatFlag with
          | false => exact Or.inl (by simp [triggeredSnapshot])
          | true =>
            refine Or.inr ⟨by simp [triggeredSnapshot], u.1, ?_, hcase, ?_⟩
            · simp [triggeredSnapshot]
            · exact hchain.2)
      rw [hpost, hfind1]
    · have hfind1 : rest.find? (fun u => decide (a.price ≤ u.1)) =
          some ufire := by
        rw [List.find?_cons_of_neg _ (by simpa using hcase)] at hfind
        exact hfind
      have hf : (checkAlert { a with lastPrice := some q } u.1).1 = false := by
        rw [checkAlert_fst_cross_some hb hta rfl]
        have h1 : ¬ ({ a with lastPrice := some q } : Alert).price ≤ u.1 := hcase
        have h2 : ¬ ({ a with lastPrice := some q } : Alert).price < q := by
          exact not_lt.mpr (le_of_lt hq)
        simp [h1, h2]
      have hpp : processPriceUpdate
          { alerts := [(a.id, { a with lastPrice := some q })],
            notifiers := [], alertHistory := [], maxAlerts := 100,
            cooldown := cd, lastAlertTimes := [] } a.symbol u.1 u.2 =
          ({ alerts := [(a.id, { a with lastPrice := some u.1 })],
             notifiers := [], alertHistory := [], maxAlerts := 100,
             cooldown := cd, lastAlertTimes := [] }, []) := by
        rw [processPriceUpdate_ids, hga]
        simp only [List.map_cons, List.map_nil, List.foldl_cons,
          List.foldl_nil]
        rw [processAlertStep_nofire hget hf]
        rw [checkAlert_snd_of_active hb]
        simp [mapSet]
      simp only [hpp, List.append_nil]
      exact ih u.1 acc ufire (lt_of_not_le hcase) hchain.2 hfind1

/-- C4: for a fresh `cross` alert over a monotone ascending run that
starts below the target and contains a sample at-or-above it, exactly one
dispatch event is produced, at the first sample whose price reaches the
target (the transition sample); and the very first sample ever observed
(no `lastPrice` yet) never fires a `cross` alert. -/
theorem c4_cross_single_fire :
    (∀ (a : Alert) (cd : Nat) (u0 ufire : Int × Nat)
        (us : List (Int × Nat)),
      a.type = .cross → a.status = .active → a.lastPrice = none →
      List.Chain' (fun x y => x ≤ y) ((u0 :: us).map (·.1)) →
      u0.1 < a.price →
      us.find? (fun u => decide (a.price ≤ u.1)) = some ufire →
      (runUpdates (singleAlertMgr a cd) a.symbol (u0 :: us)).2 =
        [⟨triggeredSnapshot a ufire.1 ufire.2, []⟩]) ∧
    (∀ (a : Alert) (cd : Nat) (price : Int) (now : Nat),
      a.type = .cross → a.status = .active → a.lastPrice = none →
      (processPriceUpdate (singleAlertMgr a cd) a.symbol price now).2 = []) := by
  have hfirst : ∀ (a : Alert) (cd : Nat) (price : Int) (now : Nat),
      a.type = .cross → a.status = .active → a.lastPrice = none →
      processPriceUpdate (singleAlertMgr a cd) a.symbol price now =
        ({ alerts := [(a.id, { a with lastPrice := some price })],
           notifiers := [], alertHistory := [], maxAlerts := 100,
           cooldown := cd, lastAlertTimes := [] }, []) := by
    intro a cd price now hta hsa hlp
    have hga : getAlerts (singleAlertMgr a cd)
        { symbol := some a.symbol, status := some .active } = [a] := by
      simp [getAlerts, singleAlertMgr, matchesFilter, hsa]
    have hget : mapGet (singleAlertMgr a cd).alerts a.id = some a := by
      simp [singleAlertMgr, mapGet_cons]
    have hf : (checkAlert a price).1 = false :=
      checkAlert_fst_cross_none hsa hta hlp
    rw [processPriceUpdate_ids, hga]
    simp only [List.map_cons, List.map_nil, List.foldl_cons, List.foldl_nil]
    rw [processAlertStep_nofire hget hf]
    rw [checkAlert_snd_of_active hsa]
    simp [singleAlertMgr, mapSet]
  constructor
  · intro a cd u0 ufire us hta hsa hlp hchain hbelow hfind
    simp only [runUpdates, List.foldl_cons]
    simp only [hfirst a cd u0.1 u0.2 hta hsa hlp, List.append_nil]
    rw [List.map_cons] at hchain
    exact c4_pre_run a cd hta hsa us u0.1 [] ufire hbelow hchain hfind
  · intro a cd price now hta hsa hlp
    rw [hfirst a cd price now hta hsa hlp]

/-- Witness for C4: a BTCUSDT `cross` alert at 100 over the ascending run
90, 95, 100, 105 fires exactly once, at the sample (100, 3); and a single
first sample at 105 alone does not fire. -/
theorem c4_cross_single_fire_witness :
    (runUpdates (singleAlertMgr (freshAlert "c1" "BTCUSDT" 100 .cross) 1000)
        "BTCUSDT" [(90, 1), (95, 2), (100, 3), (105, 4)]).2 =
      [⟨triggeredSnapshot (freshAlert "c1" "BTCUSDT" 100 .cross) 100 3, []⟩] ∧
    (processPriceUpdate
        (singleAlertMgr (freshAlert "c1" "BTCUSDT" 100 .cross) 1000)
        "BTCUSDT" 105 7).2 = [] :=
  ⟨c4_cross_single_fire.1 (freshAlert "c1" "BTCUSDT" 100 .cross) 1000
      (90, 1) (100, 3) [(95, 2), (100, 3), (105, 4)]
      (by decide) (by decide) (by decide)
      (by simp [List.chain'_cons]) (by decide) (by decide),
   c4_cross_single_fire.2 (freshAlert "c1" "BTCUSDT" 100 .cross) 1000 105 7
      (by decide) (by decide) (by decide)⟩

/-!  ## C7: serial queue drain with minimum send spacing -/

/-- The rate-limiting wait: from any loop state whose recorded
`lastSendTime` is in the past, the delivery attempt starts no earlier than
`lastSendTime + minInterval`. -/
theorem attemptTime_ge {mi clock last : Nat} (h : last ≤ clock)
    (msg : QMsg) : last + mi ≤ attemptTime mi clock last msg := by
  simp only [attemptTime]
  split <;> rename_i hc <;> omega

/-- Every successful send timestamp of a drain is at least
`lastSendTime + minInterval` past the initial `lastSendTime`, successive
successful sends are spaced by at least `minInterval`, and the final state
keeps `lastSendTime` at or before the clock. -/
theorem processQueue_spacing (mi : Nat) :
    ∀ (msgs : List QMsg) (clock last : Nat), last ≤ clock →
      (∀ t ∈ sendTimes (processQueue mi clock last msgs).2, last + mi ≤ t) ∧
      List.Chain' (fun x y => x + mi ≤ y)
        (sendTimes (processQueue mi clock last msgs).2) ∧
      (processQueue mi clock last msgs).1.2 ≤
        (processQueue mi clock last msgs).1.1 := by
  intro msgs
  induction msgs with
  | nil =>
    intro clock last h
    exact ⟨by simp [processQueue, sendTimes], by simp [processQueue, sendTimes], h⟩
  | cons msg rest ih =>
    intro clock last h
    have hat : last + mi ≤ attemptTime mi clock last msg := attemptTime_ge h msg
    have hfin : last + mi ≤ attemptTime mi clock last msg + msg.dur :=
      le_trans hat (Nat.le_add_right _ _)
    cases hok : msg.ok with
    | true =>
      have hstep : drainStep mi clock last msg =
          ((attemptTime mi clock last msg + msg.dur,
            attemptTime mi clock last msg + msg.dur),
           some (attemptTime mi clock last msg + msg.dur)) := by
        simp [drainStep, hok]
      have hrec := ih (attemptTime mi clock last msg + msg.dur)
        (attemptTime mi clock last msg + msg.dur) (le_refl _)
      refine ⟨?_, ?_, ?_⟩
      · intro t ht
        simp only [processQueue, hstep, sendTimes, List.filterMap_cons, id_eq] at ht ⊢
        rcases List.mem_cons.mp ht with h1 | h1
        · omega
        · have := hrec.1 t h1
          omega
      · simp only [processQueue, hstep, sendTimes, List.filterMap_cons, id_eq]
        rw [List.chain'_cons']
        refine ⟨?_, hrec.2.1⟩
        intro b hb
        have hmem : b ∈ sendTimes (processQueue mi
            (attemptTime mi clock last msg + msg.dur)
            (attemptTime mi clock last msg + msg.dur) rest).2 := by
          exact List.mem_of_mem_head? hb
        exact hrec.1 b hmem
      · simp only [processQueue, hstep]
        exact hrec.2.2
    | false =>
      have hstep : drainStep mi clock last msg =
          ((attemptTime mi clock last msg + msg.dur, last), none) := by
        simp [drainStep, hok]
      have hlast : last ≤ attemptTime mi clock last msg + msg.dur := by omega
      have hrec := ih (attemptTime mi clock last msg + msg.dur) last hlast
      refine ⟨?_, ?_, ?_⟩
      · intro t ht
        simp only [processQueue, hstep, sendTimes, List.filterMap_cons, id_eq] at ht ⊢
        exact hrec.1 t ht
      · simp only [processQueue, hstep, sendTimes, List.filterMap_cons, id_eq]
        exact hrec.2.1
      · simp only [processQueue, hstep]
        exact hrec.2.2

/-- C7: for an enabled, initialized notifier, the serial queue drain sends
any two consecutive successful deliveries at least `minInterval` apart:
each dequeued message first waits out the remaining time until
`lastSendTime + minInterval`, the attempt then runs, and `lastSendTime` is
recorded at completion of a successful delivery only. -/
theorem c7_notifier_spacing (st : NotifierState) (msgs : List QMsg)
    (clock last : Nat) (hen : st.enabled = true) (hbot : st.bot = true)
    (hcl : last ≤ clock) :
    List.Chain' (fun x y => x + st.minInterval ≤ y)
      (sendTimes (processQueue st.minInterval clock last msgs).2) ∧
    (∀ (c l : Nat) (msg : QMsg), l ≤ c →
      l + st.minInterval ≤ attemptTime st.minInterval c l msg) ∧
    (∀ (c l : Nat) (msg : QMsg),
      (msg.ok = true → drainStep st.minInterval c l msg =
        ((attemptTime st.minInterval c l msg + msg.dur,
          attemptTime st.minInterval c l msg + msg.dur),
         some (attemptTime st.minInterval c l msg + msg.dur))) ∧
      (msg.ok = false → drainStep st.minInterval c l msg =
        ((attemptTime st.minInterval c l msg + msg.dur, l), none))) := by
  refine ⟨(processQueue_spacing st.minInterval msgs clock last hcl).2.1, ?_, ?_⟩
  · intro c l msg hl
    exact attemptTime_ge hl msg
  · intro c l msg
    constructor
    · intro hok
      simp [drainStep, hok]
    · intro hok
      simp [drainStep, hok]

/-- Witness for C7 at a concrete three-message queue (success, failure,
success) on a fresh notifier state. -/
theorem c7_notifier_spacing_witness :
    List.Chain' (fun x y => x + (1000 : Nat) ≤ y)
      (sendTimes (processQueue 1000 5 0
        [⟨true, 0, 5⟩, ⟨false, 100, 3⟩, ⟨true, 0, 2⟩]).2) :=
  (c7_notifier_spacing
    { enabled := true, bot := true, minInterval := 1000 }
    [⟨true, 0, 5⟩, ⟨false, 100, 3⟩, ⟨true, 0, 2⟩] 5 0
    rfl rfl (by decide)).1

/-!  ## C8: the trigger history is a bounded FIFO written only by firings -/

/-- Each loop-body pass either leaves the history alone or appends one
trigger snapshot through the 100-entry trim. -/
theorem processAlertStep_history (m : AlertManager) (evs : List DispatchEvent)
    (id : String) (price : Int) (now : Nat) :
    (processAlertStep m evs id price now).1.alertHistory = m.alertHistory ∨
    ∃ e, (processAlertStep m evs id price now).1.alertHistory =
      trimHist (m.alertHistory ++ [e]) := by
  cases hg : mapGet m.alerts id with
  | none => exact Or.inl (by rw [processAlertStep_not_found hg])
  | some a =>
    cases hf : (checkAlert a price).1 with
    | false => exact Or.inl (by rw [processAlertStep_nofire hg hf])
    | true =>
      cases hcd : inCooldown m (cooldownKey a) now with
      | true => exact Or.inl (by rw [processAlertStep_cooldown hg hf hcd])
      | false =>
        refine Or.inr ⟨triggeredSnapshot a price now, ?_⟩
        rw [processAlertStep_fire hg hf hcd]

theorem processAlertStep_history_le {m : AlertManager}
    {evs : List DispatchEvent} {id : String} {price : Int} {now : Nat}
    (h : m.alertHistory.length ≤ 100) :
    (processAlertStep m evs id price now).1.alertHistory.length ≤ 100 := by
  rcases processAlertStep_history m evs id price now with he | ⟨e, he⟩ <;>
    rw [he]
  · exact h
  · exact trimHist_length_le _ h

theorem foldl_steps_history_le :
    ∀ (ids : List String) (m : AlertManager) (evs : List DispatchEvent)
      (price : Int) (now : Nat), m.alertHistory.length ≤ 100 →
      ((ids.foldl (fun acc i => processAlertStep acc.1 acc.2 i price now)
        (m, evs)).1).alertHistory.length ≤ 100 := by
  intro ids
  induction ids with
  | nil =>
    intro m evs price now h
    exact h
  | cons i rest ih =>
    intro m evs price now h
    rw [List.foldl_cons]
    exact ih _ _ price now (processAlertStep_history_le h)

theorem processPriceUpdate_history_le {m : AlertManager} {s : String}
    {price : Int} {now : Nat} (h : m.alertHistory.length ≤ 100) :
    (processPriceUpdate m s price now).1.alertHistory.length ≤ 100 := by
  rw [processPriceUpdate_ids]
  exact foldl_steps_history_le _ m [] price now h

theorem removeAlert_history (m : AlertManager) (id : String) :
    (removeAlert m id).2.alertHistory = m.alertHistory := by
  unfold removeAlert
  split <;> rfl

theorem foldl_remove_history :
    ∀ (l : List Alert) (m : AlertManager),
      (l.foldl (fun acc a => (removeAlert acc a.id).2) m).alertHistory =
        m.alertHistory := by
  intro l
  induction l with
  | nil => intro m; rfl
  | cons a rest ih =>
    intro m
    rw [List.foldl_cons, ih, removeAlert_history]

theorem addAlert_ok_history {m : AlertManager} {cfg : AlertConfig}
    {fid : String} {now : Nat} {r : Alert × AlertManager}
    (h : addAlert m cfg fid now = .ok r) :
    r.2.alertHistory = m.alertHistory := by
  unfold addAlert at h
  split at h
  · exact absurd h (by simp)
  · simp only [Except.ok.injEq] at h
    rw [← h]

theorem applyOp_add_history (m : AlertManager) (cfg : AlertConfig)
    (fid : String) (now : Nat) :
    (applyOp m (.add cfg fid now)).alertHistory = m.alertHistory := by
  have heq : applyOp m (.add cfg fid now) =
      (match addAlert m cfg fid now with
       | .ok r => r.2
       | .error _ => m) := rfl
  rw [heq]
  cases haa : addAlert m cfg fid now with
  | ok r => exact addAlert_ok_history haa
  | error e => rfl

theorem applyOp_history_le {m : AlertManager} (op : Op)
    (h : m.alertHistory.length ≤ 100) :
    (applyOp m op).alertHistory.length ≤ 100 := by
  cases op with
  | add cfg fid now =>
    rw [applyOp_add_history]
    exact h
  | remove id =>
    simpa [applyOp, removeAlert_history] using h
  | register n => exact h
  | update s price now => exact processPriceUpdate_history_le h
  | clear =>
    simpa [applyOp, clearTriggered, foldl_remove_history] using h

theorem reachable_history_aux :
    ∀ (ops : List Op) (m : AlertManager), m.alertHistory.length ≤ 100 →
      (ops.foldl applyOp m).alertHistory.length ≤ 100 := by
  intro ops
  induction ops with
  | nil => intro m h; exact h
  | cons op rest ih =>
    intro m h
    rw [List.foldl_cons]
    exact ih _ (applyOp_history_le op h)

theorem trimHist_full (h : List Alert) (e : Alert) (hlen : h.length = 100) :
    trimHist (h ++ [e]) = h.tail ++ [e] := by
  unfold trimHist
  rw [if_pos (by simp [hlen])]
  cases h with
  | nil => simp at hlen
  | cons x t => rfl

/-- C8: in every reachable Alert Store state the trigger history holds at
most 100 entries; a firing that appends to a full history evicts the
oldest entry first; and no operation other than a price-update firing
(add, remove, notifier registration, clear) ever changes the history. -/
theorem c8_history_bounded :
    (∀ (maxA cdv : Nat) (ops : List Op),
      (reachable maxA cdv ops).alertHistory.length ≤ 100) ∧
    (∀ (m : AlertManager) (evs : List DispatchEvent) (id : String)
        (price : Int) (now : Nat),
      m.alertHistory.length = 100 →
      (processAlertStep m evs id price now).1.alertHistory = m.alertHistory ∨
      ∃ e, (processAlertStep m evs id price now).1.alertHistory =
        m.alertHistory.tail ++ [e]) ∧
    (∀ (m : AlertManager) (cfg : AlertConfig) (fid : String) (now : Nat),
      (applyOp m (.add cfg fid now)).alertHistory = m.alertHistory) ∧
    (∀ (m : AlertManager) (id : String),
      (applyOp m (.remove id)).alertHistory = m.alertHistory) ∧
    (∀ (m : AlertManager) (n : NotifierFn),
      (applyOp m (.register n)).alertHistory = m.alertHistory) ∧
    (∀ m : AlertManager, (applyOp m .clear).alertHistory = m.alertHistory) := by
  refine ⟨?_, ?_, ?_, ?_, ?_, ?_⟩
  · intro maxA cdv ops
    exact reachable_history_aux ops (AlertManager.init maxA cdv) (by
      simp [AlertManager.init])
  · intro m evs id price now hlen
    rcases processAlertStep_history m evs id price now with he | ⟨e, he⟩
    · exact Or.inl he
    · exact Or.inr ⟨e, by rw [he, trimHist_full m.alertHistory e hlen]⟩
  · intro m cfg fid now
    exact applyOp_add_history m cfg fid now
  · intro m id
    simp [applyOp, removeAlert_history]
  · intro m n
    rfl
  · intro m
    simp [applyOp, clearTriggered, foldl_remove_history]

/-- Witness for C8 at a concrete reachable run (add, trigger, remove) and
at a concrete full history of 100 entries. -/
theorem c8_history_bounded_witness :
    (reachable 100 3600000
      [.add { id := some "a1", symbol := "ETHUSDT", price := 3000,
              type := some .above, repeatFlag := false } "f" 1,
       .update "ETHUSDT" 3100 1000,
       .remove "a1"]).alertHistory.length ≤ 100 ∧
    ((processAlertStep
        { singleAlertMgr (freshAlert "a1" "ETHUSDT" 3000 .above) 3600000 with
            alertHistory :=
              List.replicate 100 (freshAlert "h" "ETHUSDT" 1 .above) }
        [] "a1" 3100 1000).1.alertHistory =
      (List.replicate 100 (freshAlert "h" "ETHUSDT" 1 .above) :
        List Alert) ∨
     ∃ e, (processAlertStep
        { singleAlertMgr (freshAlert "a1" "ETHUSDT" 3000 .above) 3600000 with
            alertHistory :=
              List.replicate 100 (freshAlert "h" "ETHUSDT" 1 .above) }
        [] "a1" 3100 1000).1.alertHistory =
      (List.replicate 100 (freshAlert "h" "ETHUSDT" 1 .above)).tail ++ [e]) :=
  ⟨c8_history_bounded.1 100 3600000
      [.add { id := some "a1", symbol := "ETHUSDT", price := 3000,
              type := some .above, repeatFlag := false } "f" 1,
       .update "ETHUSDT" 3100 1000,
       .remove "a1"],
   c8_history_bounded.2.1
      { singleAlertMgr (freshAlert "a1" "ETHUSDT" 3000 .above) 3600000 with
          alertHistory :=
            List.replicate 100 (freshAlert "h" "ETHUSDT" 1 .above) }
      [] "a1" 3100 1000 (by simp)⟩

end WhaleTracker
